import Mathlib

/-!
Verification of the photo-collection synchronization pipeline
(`scripts/compress_images.py` plus its `lib/` modules) against its
natural-language specification.

The Python source is shallowly embedded: directory listings become lists of
entry records, modification times become naturals, the image codec and the
object store (external collaborators, per the spec's scope) become boolean
oracles keyed by path, and every effectful call the pipeline performs
(manifest save, remote purge, codec invocation, artifact write, upload) is
recorded in an explicit effect trace.  Printing to stdout is not modelled.
-/

set_option autoImplicit false

namespace PhotoSync

/-! ## String utilities (Python `str` / `os.path` semantics)

These embed the exact string operations the source uses.  They operate on
`String.data` (lists of characters) so that every definition reduces cleanly
in the kernel.  Path separators are modelled as `'/'` (POSIX). -/

/-- Python `a.startswith(b)` on character lists. -/
def listBeginsWith : List Char → List Char → Bool
  | _, [] => true
  | [], _ :: _ => false
  | c :: cs, p :: ps => c == p && listBeginsWith cs ps

/-- Python `s.startswith(t)`. -/
def strBeginsWith (s t : String) : Bool :=
  listBeginsWith s.data t.data

/-- Python `s.endswith(t)`. -/
def strEndsWith (s t : String) : Bool :=
  listBeginsWith s.data.reverse t.data.reverse

/-- Python `s.lower()` (ASCII case folding; the extensions and names the
pipeline compares are ASCII). -/
def lowerStr (s : String) : String :=
  ⟨s.data.map Char.toLower⟩

/-- Python `os.path.basename` for `'/'`-separated paths: the part after the
last separator. -/
def basename (p : String) : String :=
  ⟨(p.data.reverse.takeWhile (fun c => c ≠ '/')).reverse⟩

/-- Python `os.path.splitext`, on character lists.  Splits at the last dot of
the basename, unless every character between the last separator and that dot
is itself a dot (so `".bashrc"` has no extension). -/
def splitextL (l : List Char) : List Char × List Char :=
  let r := l.reverse
  let tk := r.takeWhile (fun c => c ≠ '.' && c ≠ '/')
  match r.drop tk.length with
  | '.' :: beforeDot =>
      if (beforeDot.takeWhile (fun c => c ≠ '/')).any (fun c => c ≠ '.') then
        (beforeDot.reverse, '.' :: tk.reverse)
      else (l, [])
  | _ => (l, [])

/-- Python `os.path.splitext` on strings. -/
def splitext (p : String) : String × String :=
  let (root, ext) := splitextL p.data
  (⟨root⟩, ⟨ext⟩)

/-- Python `filename.replace('.', repl)`: every `'.'` is replaced.  This is
the exact operation `process_group` uses to derive the compressed filename
(`filename.replace('.', '-compressed.')`). -/
def pyReplaceDot (repl : List Char) : List Char → List Char
  | [] => []
  | c :: rest =>
      if c = '.' then repl ++ pyReplaceDot repl rest
      else c :: pyReplaceDot repl rest

/-- `compressed_filename = filename.replace('.', '-compressed.')`
(compress_images.py, line 274). -/
def compressedFilename (filename : String) : String :=
  ⟨pyReplaceDot "-compressed.".data filename.data⟩

/-- Python `compressed_base[:-11]` guarded by
`compressed_base.endswith('-compressed')` (gallery_manager.py 122-123);
`'-compressed'` has 11 characters. -/
def stripCompressedSuffix (s : String) : String :=
  if strEndsWith s "-compressed" then ⟨s.data.take (s.data.length - 11)⟩ else s

/-- Python `os.path.join` over path components, POSIX separators. -/
def joinParts : List String → String
  | [] => ""
  | [p] => p
  | p :: rest => p ++ "/" ++ joinParts rest

/-! ## Date-bucket name validation (`validate_date_directory_name`) -/

/-- Value of a list of decimal digit characters. -/
def digitsToNat (l : List Char) : Nat :=
  l.foldl (fun acc c => acc * 10 + (c.toNat - 48)) 0

/-- Proleptic-Gregorian leap year, as used by Python `datetime`. -/
def isLeapYear (y : Nat) : Bool :=
  (y % 4 == 0 && y % 100 != 0) || y % 400 == 0

/-- Days in a month of the proleptic Gregorian calendar. -/
def daysInMonth (y m : Nat) : Nat :=
  if m == 2 then (if isLeapYear y then 29 else 28)
  else if m == 4 || m == 6 || m == 9 || m == 11 then 30
  else 31

/-- `validate_date_directory_name` (compress_images.py, lines 78-100): the
name must match `^\d{4}-\d{2}-\d{2}$` and parse as a real calendar date via
`datetime.strptime(dir_name, '%Y-%m-%d')`.  `datetime` accepts years 1-9999
(so `0000-01-01` is invalid); digits are modelled as ASCII. -/
def validate_date_directory_name (s : String) : Bool :=
  match s.data with
  | [y1, y2, y3, y4, h1, m1, m2, h2, d1, d2] =>
      h1 == '-' && h2 == '-' &&
      ([y1, y2, y3, y4, m1, m2, d1, d2].all Char.isDigit) &&
      (let y := digitsToNat [y1, y2, y3, y4]
       let m := digitsToNat [m1, m2]
       let d := digitsToNat [d1, d2]
       decide (1 ≤ y) && decide (1 ≤ m) && decide (m ≤ 12) &&
       decide (1 ≤ d) && decide (d ≤ daysInMonth y m))
  | _ => false

/-! ## Filesystem model

The pipeline inspects exactly two directory levels plus each group's
`compressed` cache directory, so the filesystem is modelled as that tree.
Modification times are naturals.  Directory listings reached by the pipeline
are assumed readable (discovery already listed every directory it yields). -/

/-- One entry of a directory listing: name, whether it is a directory, and
its modification time (meaningful for files). -/
structure FSEntry where
  name : String
  isDir : Bool
  mtime : Nat
deriving Repr, DecidableEq

/-- Parsed contents of a group's `config.json`
(`{name?, location?, url?, featured_image?}`). -/
structure GroupConfig where
  name : Option String
  location : Option String
  url : Option String
  featured_image : Option String
deriving Repr, DecidableEq

/-- A group directory: its name, kind, direct children (`os.listdir`), the
result of parsing its `config.json` (`some cfg` when the file exists and
`json.load` succeeds, `none` when parsing raises), and the children of its
`compressed` subdirectory (empty when absent). -/
structure GroupNode where
  name : String
  isDir : Bool
  entries : List FSEntry
  configParse : Option GroupConfig
  compressedEntries : List FSEntry
deriving Repr, DecidableEq

/-- A top-level date-bucket entry of the collection root. -/
structure DateNode where
  name : String
  isDir : Bool
  groups : List GroupNode
deriving Repr, DecidableEq

/-- The collection root: whether the path exists, and its listing. -/
structure Collection where
  present : Bool
  dates : List DateNode
deriving Repr, DecidableEq

/-- A discovered group directory together with its parent date bucket's
name (the information carried by its path string). -/
structure Discovered where
  dateName : String
  node : GroupNode
deriving Repr, DecidableEq

/-- Recognized image extension set of `has_image_files`
(compress_images.py, line 25). -/
def IMAGE_EXTENSIONS : List String :=
  [".jpg", ".jpeg", ".png", ".gif", ".bmp", ".tiff", ".webp"]

/-- `has_image_files` (compress_images.py, lines 13-31): some listed name,
lowercased, has an extension in the recognized set (the entry's kind is not
consulted). -/
def has_image_files (g : GroupNode) : Bool :=
  g.entries.any (fun e => IMAGE_EXTENSIONS.contains (splitext (lowerStr e.name)).2)

/-- The group directories contributed by one valid date bucket
(compress_images.py, lines 64-74): skip non-directories, hidden names and
the reserved `compressed` name; keep directories containing images. -/
def groupsOfDate (d : DateNode) : List Discovered :=
  d.groups.filterMap (fun g =>
    if !g.isDir || strBeginsWith g.name "." || g.name == "compressed" then none
    else if has_image_files g then some ⟨d.name, g⟩ else none)

/-- The date-bucket loop of `discover_group_directories` (compress_images.py,
lines 51-74): skip non-directories and hidden entries; on the first entry
whose name fails `validate_date_directory_name`, the whole run is aborted
(`raise SystemExit(1)`), modelled as `.error` carrying that name. -/
def discoverDates : List DateNode → Except String (List Discovered)
  | [] => .ok []
  | d :: rest =>
      if !d.isDir || strBeginsWith d.name "." then discoverDates rest
      else if validate_date_directory_name d.name then
        match discoverDates rest with
        | .error e => .error e
        | .ok tail => .ok (groupsOfDate d ++ tail)
      else .error d.name

/-- `discover_group_directories` (compress_images.py, lines 33-76): an
absent collection root yields the empty list. -/
def discover_group_directories (col : Collection) : Except String (List Discovered) :=
  if !col.present then .ok []
  else discoverDates col.dates

/-! ## Group validation (`validate_group_directories`) -/

/-- `os.path.exists(os.path.join(group_dir, 'config.json'))`
(compress_images.py, lines 122-123): an entry of any kind named
`config.json` exists. -/
def hasConfigEntry (g : GroupNode) : Bool :=
  g.entries.any (fun e => e.name == "config.json")

/-- The subdirectory sweep of `validate_group_directories`
(compress_images.py, lines 127-132): some child is a directory not named
`compressed` (hidden subdirectories count too). -/
def hasDisallowedSubdir (g : GroupNode) : Bool :=
  g.entries.any (fun e => e.isDir && e.name != "compressed")

/-- Result record of `validate_group_directories`. -/
structure ValidationErrors where
  missing_config : List Discovered
  has_subdirectories : List Discovered
deriving Repr, DecidableEq

/-- `validate_group_directories` (compress_images.py, lines 102-136): one
full sweep over every group, appending each group missing `config.json` and
each group owning a disallowed subdirectory (at most once per group: the
source `break`s after the first offending child). -/
def validate_group_directories : List Discovered → ValidationErrors
  | [] => ⟨[], []⟩
  | g :: rest =>
      let v := validate_group_directories rest
      ⟨(if hasConfigEntry g.node then v.missing_config else g :: v.missing_config),
       (if hasDisallowedSubdir g.node then g :: v.has_subdirectories else v.has_subdirectories)⟩

/-! ## Gallery manifest model (`lib/gallery_manager.py`)

The manifest (`gallery-config.json`) is the in-memory `{'groups': [...]}`
structure; `_save_config` writes are recorded by the pipeline's effect
trace.  `regenerate_from_groups` receives path strings and re-reads each
group's `config.json` itself, so its input is modelled as a record carrying
the split path components, whether the config file exists, and the parse
result. -/

/-- One element of a manifest group's `images` list.  The pipeline only ever
stores `{"compressed": key}` dictionaries, but `update_group_images` also
probes an optional `original` key, so both are modelled. -/
structure ImgEntry where
  original : Option String
  compressed : String
deriving Repr, DecidableEq

/-- A manifest group entry (gallery_manager.py, lines 61-73).  `url` is
`some` exactly when the source adds the optional key. -/
structure Group where
  id : String
  title : String
  description : String
  date_captured : String
  images : List ImgEntry
  coverImage : String
  featured_image : String
  url : Option String
deriving Repr, DecidableEq

/-- The gallery manifest: `{'groups': [...]}`. -/
structure Manifest where
  groups : List Group
deriving Repr, DecidableEq

/-- What `regenerate_from_groups` can observe of one group directory path:
the path split on the separator (`group_dir.split(os.sep)`), whether
`config.json` exists there, and the result of `json.load` on it (`none`
models a parse error, which the source catches and skips). -/
structure GroupRef where
  pathParts : List String
  hasConfigFile : Bool
  configParse : Option GroupConfig
deriving Repr, DecidableEq

/-- The path-and-config view of a discovered group, as
`process_group` passes it to the gallery manager: the group's path is
`collection_root/date/name`. -/
def Discovered.toRef (rootParts : List String) (d : Discovered) : GroupRef :=
  ⟨rootParts ++ [d.dateName, d.node.name], hasConfigEntry d.node, d.node.configParse⟩

/-- The loop body of `regenerate_from_groups` (gallery_manager.py, lines
22-80): skip when `config.json` is missing, unreadable, or the path has
fewer than two components; else build the group entry.  `date_captured` is
the parent directory's name, the id is the directory's own name, the title
is `name` (defaulting to the directory name), the description mentions the
location only when it is a non-empty string, and `url` is kept only when
non-empty. -/
def regenGroup (r : GroupRef) : Option Group :=
  if !r.hasConfigFile then none
  else match r.configParse with
  | none => none
  | some cfg =>
      if r.pathParts.length < 2 then none
      else
        let date_captured := r.pathParts.getD (r.pathParts.length - 2) ""
        let group_name := r.pathParts.getD (r.pathParts.length - 1) ""
        let name := cfg.name.getD group_name
        let location := cfg.location.getD ""
        let url := cfg.url.getD ""
        let featured_image := cfg.featured_image.getD ""
        let description :=
          if location ≠ "" then name ++ " at " ++ location ++ " on " ++ date_captured ++ "."
          else name ++ " on " ++ date_captured ++ "."
        some ⟨group_name, name, description, date_captured, [], "", featured_image,
              if url ≠ "" then some url else none⟩

/-- `regenerate_from_groups` (gallery_manager.py, lines 12-84): the manifest
is rebuilt from scratch as the entries of the groups that survive the loop
body, in input order.  (The trailing `_save_config` call is recorded by the
pipeline's effect trace.) -/
def regenerate_from_groups (rs : List GroupRef) : Manifest :=
  ⟨rs.filterMap regenGroup⟩

/-- `get_group` (gallery_manager.py, lines 86-91): first group with the
given id. -/
def get_group (m : Manifest) (group_id : String) : Option Group :=
  m.groups.find? (fun g => g.id == group_id)

/-- The per-image match test of `update_group_images` (gallery_manager.py,
lines 111-128): an entry matches when its `original` value ends with the
featured filename, or else when the basename of its `compressed` key,
extension removed and `-compressed` suffix removed, equals the featured
filename's stem. -/
def imgMatches (featured_image featured_base : String) (img : ImgEntry) : Bool :=
  (match img.original with
   | some o => strEndsWith o featured_image
   | none => false) ||
  (let compressed_base := stripCompressedSuffix (splitext (basename img.compressed)).1
   featured_base == compressed_base)

/-- The mutation `update_group_images` applies to the found group
(gallery_manager.py, lines 100-137): replace `images`; when the new list is
non-empty, resolve `coverImage` from the group's stored `featured_image`
(first matching entry), falling back to the first entry when the featured
name is empty or unmatched. -/
def updateOne (g : Group) (images : List ImgEntry) : Group :=
  let g1 := { g with images := images }
  match images with
  | [] => g1
  | first :: _ =>
      if g.featured_image ≠ "" then
        let featured_base := (splitext g.featured_image).1
        match images.find? (imgMatches g.featured_image featured_base) with
        | some fimg => { g1 with coverImage := fimg.compressed }
        | none => { g1 with coverImage := first.compressed }
      else { g1 with coverImage := first.compressed }

/-- Replace the first group with the given id (Python mutates the object
returned by `get_group`, which is the first match). -/
def updateFirst (group_id : String) (f : Group → Group) : List Group → List Group
  | [] => []
  | g :: rest =>
      if g.id == group_id then f g :: rest else g :: updateFirst group_id f rest

/-- `update_group_images` (gallery_manager.py, lines 93-139): when the id is
unknown, warn and return without touching or saving the manifest (the
returned flag records whether `_save_config` ran). -/
def update_group_images (m : Manifest) (group_id : String) (images : List ImgEntry) :
    Manifest × Bool :=
  match get_group m group_id with
  | none => (m, false)
  | some _ => (⟨updateFirst group_id (fun g => updateOne g images) m.groups⟩, true)

/-! ## Image processor model (`lib/image_processor.py`)

`ImageProcessor.process_image` is embedded over a model of an opened PIL
image: its mode, pixel size, and (for images produced by the flattening
step) the background colour they were composited onto.  Pillow's JPEG
encoder accepts exactly the raw modes `1, L, RGB, CMYK, YCbCr`; saving any
other mode raises `OSError`, which `process_image` catches, turning it into
a `False` return.  Floating-point resize arithmetic is approximated with
rational (natural-division) arithmetic; no claim depends on the exact
resized dimensions. -/

/-- PIL image modes relevant to the pipeline. -/
inductive PILMode
  | mode1 | modeL | modeLA | modeP | modeRGB | modeRGBA | modeCMYK | modeYCbCr
deriving Repr, DecidableEq

/-- A successfully opened PIL image: mode, width, height, and the background
colour it was composited onto, when it is the product of the flattening
step. -/
structure PILImage where
  mode : PILMode
  w : Nat
  h : Nat
  bg : Option (Nat × Nat × Nat)
deriving Repr, DecidableEq

/-- The alpha-flattening step of `process_image` (image_processor.py, lines
16-19): RGBA and LA images are pasted onto a fresh white RGB background;
every other mode — including palette mode `P` — passes through unchanged. -/
def flattenAlpha (img : PILImage) : PILImage :=
  if img.mode == .modeRGBA || img.mode == .modeLA then
    { mode := .modeRGB, w := img.w, h := img.h, bg := some (255, 255, 255) }
  else img

/-- The modes Pillow's JPEG plugin can encode (its `RAWMODE` table); saving
any other mode raises `OSError: cannot write mode ... as JPEG`. -/
def jpegRawmodeOk : PILMode → Bool
  | .mode1 | .modeL | .modeRGB | .modeCMYK | .modeYCbCr => true
  | _ => false

/-- `ImageProcessor.process_image` (image_processor.py, lines 11-38) on an
opened image: flatten alpha, downscale when the longest edge exceeds
`max_size` (never upscale; resizing preserves the mode), then JPEG-encode.
Returns whether the call returns `True`, and the image that was written.
The resize ratio test `min(max_size/w, max_size/h) < 1` is equivalent to
`max_size < max w h` for positive dimensions. -/
def process_image (max_size : Nat) (img : PILImage) : Bool × Option PILImage :=
  let img := flattenAlpha img
  let img :=
    if max_size < max img.w img.h then
      { img with w := img.w * max_size / max img.w img.h,
                 h := img.h * max_size / max img.w img.h }
    else img
  if jpegRawmodeOk img.mode then (true, some img) else (false, none)

/-! ## Object-store model (`lib/s3_uploader.py`)

`upload_file` and `delete_collection` wrap boto3 calls; the remote store is
an external collaborator, so its observable behaviour is modelled: the set
of stored keys, whether the list/delete calls raise, and which delete
batches come back with an `Errors` field. -/

/-- Observable state and failure modes of the remote store for one
`delete_collection` call. -/
structure RemoteState where
  objects : List String
  callRaises : Bool
  batchErrors : List Nat
deriving Repr, DecidableEq

/-- `S3Uploader.delete_collection` (s3_uploader.py, lines 39-87): list every
key under the prefix (the configured `base_path` when the argument is absent
or empty), delete them in batches of at most 1000, and return `False` —
never raise — when the client raises or any batch response reports errors;
`True` when there was nothing to delete or every batch succeeded.  (The
source returns at the first errored batch; the returned value is the
same.) -/
def delete_collection (st : RemoteState) (pfxArg : Option String) (base_path : String) :
    Bool :=
  let delPfx := match pfxArg with
    | some p => if p == "" then base_path else p
    | none => base_path
  if st.callRaises then false
  else
    let objects_to_delete := st.objects.filter (fun k => strBeginsWith k delPfx)
    if objects_to_delete.isEmpty then true
    else
      (List.range ((objects_to_delete.length + 999) / 1000)).all
        (fun i => !(st.batchErrors.contains i))

/-- `S3Uploader.get_s3_keys` compressed key (s3_uploader.py, lines 89-96):
`{base_path}/{group_id}/compressed/{compressed_filename}`. -/
def s3KeyOf (base_path group_id compressed_filename : String) : String :=
  base_path ++ "/" ++ group_id ++ "/compressed/" ++ compressed_filename

/-! ## Pipeline orchestrator (`process_group`, compress_images.py 193-348)

The orchestrator is embedded as a pure function over the collection model.
The image codec and the uploader are external collaborators whose outcomes
are boolean oracles keyed by input path / remote key; every mutation the
pipeline performs is recorded in an effect trace, in program order. -/

/-- The mutating calls `process_group` can perform, in trace order:
a manifest save (with the manifest written), the remote purge attempt with
the value `delete_collection` returned, a codec invocation on an input
path, a compressed-artifact write, and an upload attempt on a remote key
with its outcome. -/
inductive Effect
  | manifestSave (m : Manifest)
  | s3PurgeAttempt (ok : Bool)
  | codecInvoke (input : String)
  | compressedWrite (output : String)
  | s3Upload (key : String) (ok : Bool)
deriving Repr, DecidableEq

/-- Whether an effect is the remote purge attempt. -/
def Effect.isPurge : Effect → Bool
  | .s3PurgeAttempt _ => true
  | _ => false

/-- The run-level configuration `process_group` reads: the collection root's
path components, the S3 `base_path`, and the recognized image formats of
`image_processing.formats`. -/
structure PipeConfig where
  rootParts : List String
  base_path : String
  formats : List String
deriving Repr, DecidableEq

/-- `ImageProcessor.is_valid_image` (image_processor.py, lines 47-50):
the lowercased filename ends with one of the configured format
extensions (the extensions themselves are compared verbatim). -/
def is_valid_image (formats : List String) (filename : String) : Bool :=
  formats.any (fun ext => strEndsWith (lowerStr filename) ext)

/-- `input_path = os.path.join(source_dir, filename)`. -/
def inputPathOf (srcPath filename : String) : String :=
  srcPath ++ "/" ++ filename

/-- `output_path = os.path.join(compressed_dir, compressed_filename)`. -/
def outputPathOf (srcPath compressed_filename : String) : String :=
  srcPath ++ "/compressed/" ++ compressed_filename

/-- The cache-freshness test of `process_group` (compress_images.py, lines
277-285): the compressed file exists and its modification time is not older
than the original's. -/
def isFresh (g : GroupNode) (e : FSEntry) : Bool :=
  match g.compressedEntries.find? (fun ce => ce.name == compressedFilename e.name) with
  | some ce => decide (e.mtime ≤ ce.mtime)
  | none => false

/-- The record `process_group` accumulates per image in `image_files`,
with `uploaded` playing the role of the `compressed_s3_key` entry added
after a successful upload. -/
structure FileInfo where
  filename : String
  compressed_filename : String
  uploaded : Option String
deriving Repr, DecidableEq

/-- The body of the Step-1 compression loop (compress_images.py, lines
269-306) for one directory entry: skip unrecognized names; reuse a fresh
cached artifact without invoking the codec; otherwise invoke the codec once
and, on success, write the artifact; a codec failure drops the image.
Returns the `image_files` contribution and the effects performed. -/
def compressStep (formats : List String) (codecOk : String → Bool) (srcPath : String)
    (g : GroupNode) (e : FSEntry) : Option FileInfo × List Effect :=
  if is_valid_image formats e.name then
    let input := inputPathOf srcPath e.name
    let cf := compressedFilename e.name
    if isFresh g e then (some ⟨e.name, cf, none⟩, [])
    else if codecOk input then
      (some ⟨e.name, cf, none⟩, [.codecInvoke input, .compressedWrite (outputPathOf srcPath cf)])
    else (none, [.codecInvoke input])
  else (none, [])

/-- The Step-1 compression loop over a directory listing. -/
def compressLoop (formats : List String) (codecOk : String → Bool) (srcPath : String)
    (g : GroupNode) : List FSEntry → List FileInfo × List Effect
  | [] => ([], [])
  | e :: rest =>
      let s := compressStep formats codecOk srcPath g e
      let r := compressLoop formats codecOk srcPath g rest
      (s.1.toList ++ r.1, s.2 ++ r.2)

/-- The body of the Step-2 upload loop (compress_images.py, lines 312-326)
for one `image_files` record: derive the remote key, attempt the upload,
and record the key on success. -/
def uploadStep (base_path : String) (uploadOk : String → Bool) (group_id : String)
    (fi : FileInfo) : FileInfo × List Effect :=
  let key := s3KeyOf base_path group_id fi.compressed_filename
  if uploadOk key then ({ fi with uploaded := some key }, [.s3Upload key true])
  else ({ fi with uploaded := none }, [.s3Upload key false])

/-- The Step-2 upload loop over the `image_files` list. -/
def uploadLoop (base_path : String) (uploadOk : String → Bool) (group_id : String) :
    List FileInfo → List FileInfo × List Effect
  | [] => ([], [])
  | fi :: rest =>
      let s := uploadStep base_path uploadOk group_id fi
      let r := uploadLoop base_path uploadOk group_id rest
      (s.1 :: r.1, s.2 ++ r.2)

/-- The `processed_images` list for one group (compress_images.py, lines
328-333): the `{"compressed": key}` entries of the records that gained a
`compressed_s3_key`. -/
def processedImages (cfg : PipeConfig) (codecOk uploadOk : String → Bool)
    (d : Discovered) : List ImgEntry :=
  let srcPath := joinParts (cfg.rootParts ++ [d.dateName, d.node.name])
  ((uploadLoop cfg.base_path uploadOk d.node.name
      (compressLoop cfg.formats codecOk srcPath d.node d.node.entries).1).1).filterMap
    (fun fi => fi.uploaded.map (fun k => ImgEntry.mk none k))

/-- One iteration of the per-group loop (compress_images.py, lines 255-344):
compress, upload, and — only when some image was processed — update that
group's manifest entry and save the manifest.  The group id is the
directory's name (no `--group` override is modelled). -/
def processGroupDir (cfg : PipeConfig) (codecOk uploadOk : String → Bool)
    (m : Manifest) (d : Discovered) : Manifest × List Effect :=
  let srcPath := joinParts (cfg.rootParts ++ [d.dateName, d.node.name])
  let group_id := d.node.name
  let s1 := compressLoop cfg.formats codecOk srcPath d.node d.node.entries
  let s2 := uploadLoop cfg.base_path uploadOk group_id s1.1
  let processed := processedImages cfg codecOk uploadOk d
  if processed.isEmpty then (m, s1.2 ++ s2.2)
  else
    let m2 := (update_group_images m group_id processed).1
    (m2, s1.2 ++ s2.2 ++ [.manifestSave m2])

/-- Observable outcome of one `process_group` run: whether the process
exits zero, the mutations performed in order, and the final in-memory
manifest. -/
structure RunResult where
  ok : Bool
  effects : List Effect
  manifest : Manifest
deriving Repr, DecidableEq

/-- `process_group` (compress_images.py, lines 193-348), whole-collection
invocation: discover (fatal abort on a bad date-bucket name), stop silently
when nothing is discovered, validate every group and abort when any
violation was collected, regenerate and save the manifest skeleton, attempt
the remote purge (warning only), then process each group in discovery
order.  `purgeRes` is the boolean `delete_collection` returned. -/
def run (cfg : PipeConfig) (codecOk uploadOk : String → Bool) (purgeRes : Bool)
    (col : Collection) : RunResult :=
  match discover_group_directories col with
  | .error _ => ⟨false, [], ⟨[]⟩⟩
  | .ok gs =>
      if gs.isEmpty then ⟨true, [], ⟨[]⟩⟩
      else
        let v := validate_group_directories gs
        if v.missing_config.isEmpty && v.has_subdirectories.isEmpty then
          let m1 := regenerate_from_groups (gs.map (Discovered.toRef cfg.rootParts))
          let p := gs.foldl
            (fun (acc : Manifest × List Effect) d =>
              let r := processGroupDir cfg codecOk uploadOk acc.1 d
              (r.1, acc.2 ++ r.2))
            (m1, [])
          ⟨true, Effect.manifestSave m1 :: Effect.s3PurgeAttempt purgeRes :: p.2, p.1⟩
        else ⟨false, [], ⟨[]⟩⟩

/-! ## Helper lemmas -/

theorem strData_append (s t : String) : (s ++ t).data = s.data ++ t.data := by
  cases s; cases t; rfl

theorem pyReplaceDot_append (repl a b : List Char) :
    pyReplaceDot repl (a ++ b) = pyReplaceDot repl a ++ pyReplaceDot repl b := by
  induction a with
  | nil => rfl
  | cons c cs ih =>
      by_cases h : c = '.' <;> simp [pyReplaceDot, h, ih]

theorem pyReplaceDot_no_dot (repl : List Char) (l : List Char)
    (h : ∀ c ∈ l, c ≠ '.') : pyReplaceDot repl l = l := by
  induction l with
  | nil => rfl
  | cons c cs ih =>
      have hc : c ≠ '.' := h c (by simp)
      simp [pyReplaceDot, hc, ih (fun x hx => h x (by simp [hx]))]

/-! ## Claim C5 — compressed filename derivation (corrected)

The source derives the compressed name with
`filename.replace('.', '-compressed.')`, which rewrites **every** dot, so a
filename whose stem itself contains a dot does not map to
`stem + '-compressed' + extension`: `a.b.jpg` becomes
`a-compressed.b-compressed.jpg`, not `a.b-compressed.jpg`. -/

/-- C5 counterexample: for the processed original filename `a.b.jpg` (stem
`a.b`, extension `.jpg`), the derived compressed filename is
`a-compressed.b-compressed.jpg`, which differs from the claimed
`stem + '-compressed' + extension` form `a.b-compressed.jpg`. -/
theorem c5_counterexample :
    compressedFilename "a.b.jpg" = "a-compressed.b-compressed.jpg" ∧
    splitext "a.b.jpg" = ("a.b", ".jpg") ∧
    "a-compressed.b-compressed.jpg" ≠ "a.b" ++ "-compressed" ++ ".jpg" := by
  refine ⟨rfl, rfl, ?_⟩
  decide

/-- C5 (amended): for every processed original filename whose stem contains
no dot — so the name is `stem ++ "." ++ ext` with a dot-free stem and
extension — the derived compressed filename equals the stem followed by the
`-compressed` suffix with the extension preserved (e.g. `DSC09592.jpg` maps
to `DSC09592-compressed.jpg`); filenames with further dots in the stem are
rewritten at every dot instead. -/
theorem c5_compressed_filename (stem ext : String)
    (hstem : ∀ c ∈ stem.data, c ≠ '.') (hext : ∀ c ∈ ext.data, c ≠ '.') :
    compressedFilename (stem ++ "." ++ ext) = stem ++ "-compressed." ++ ext := by
  have hdata : (stem ++ "." ++ ext).data = stem.data ++ '.' :: ext.data := by
    rw [strData_append, strData_append, List.append_assoc]
    rfl
  have : pyReplaceDot "-compressed.".data (stem ++ "." ++ ext).data
      = stem.data ++ "-compressed.".data ++ ext.data := by
    rw [hdata, pyReplaceDot_append, pyReplaceDot_no_dot _ _ hstem]
    have : pyReplaceDot "-compressed.".data ('.' :: ext.data)
        = "-compressed.".data ++ ext.data := by
      simp [pyReplaceDot, pyReplaceDot_no_dot _ _ hext]
    rw [this, List.append_assoc]
  apply String.ext
  show pyReplaceDot "-compressed.".data (stem ++ "." ++ ext).data
      = (stem ++ "-compressed." ++ ext).data
  rw [this, strData_append, strData_append]

/-- C5 witness: the amended statement at the concrete filename
`DSC09592.jpg`. -/
theorem c5_compressed_filename_witness :
    compressedFilename ("DSC09592" ++ "." ++ "jpg") = "DSC09592" ++ "-compressed." ++ "jpg" :=
  c5_compressed_filename "DSC09592" "jpg" (by decide) (by decide)

/-! ## Claim C6 — alpha/palette handling in `process_image` (corrected)

`ImageProcessor.process_image` composites RGBA and LA images onto a white
background, but never converts palette-mode (`P`) images: they reach the
JPEG encoder unconverted, the encoder raises, the handler catches, and the
call returns `False`.  (A dead duplicate of the codec inside
`compress_images.py` does convert `('RGBA', 'P')`, but it is unreachable:
the live codec is `ImageProcessor.process_image`.) -/

/-- C6 counterexample: a palette-mode (`P`) input is not converted to RGB;
JPEG encoding fails and `process_image` returns `False`, contradicting the
claim that encoding succeeds and returns true for palette images. -/
theorem c6_counterexample :
    (process_image 1200 ⟨.modeP, 100, 100, none⟩).1 ≠ true := by
  decide

/-- C6 (amended): for every input image with an alpha channel (RGBA or LA),
`process_image` composites it onto a white RGB background before JPEG
encoding, encoding succeeds and the call returns true; palette-mode (`P`)
images, however, are not converted: their JPEG encoding fails and the call
returns false. -/
theorem c6_alpha_flattened_palette_fails (max_size : Nat) (img : PILImage) :
    ((img.mode = .modeRGBA ∨ img.mode = .modeLA) →
      ∃ out, process_image max_size img = (true, some out) ∧
        out.mode = .modeRGB ∧ out.bg = some (255, 255, 255)) ∧
    (img.mode = .modeP → (process_image max_size img).1 = false) := by
  constructor
  · rintro (h | h) <;>
      · by_cases hr : max_size < max img.w img.h <;>
          simp [process_image, flattenAlpha, h, jpegRawmodeOk, hr]
  · intro h
    by_cases hr : max_size < max img.w img.h <;>
      simp [process_image, flattenAlpha, h, jpegRawmodeOk, hr]

/-- C6 witness: the amended statement at a concrete RGBA image (flattened
onto white and encoded) and a concrete palette image (encoding fails). -/
theorem c6_alpha_flattened_palette_fails_witness :
    (∃ out, process_image 1200 ⟨.modeRGBA, 2000, 1000, none⟩ = (true, some out) ∧
        out.mode = .modeRGB ∧ out.bg = some (255, 255, 255)) ∧
    (process_image 600 ⟨.modeP, 10, 10, none⟩).1 = false :=
  ⟨(c6_alpha_flattened_palette_fails 1200 ⟨.modeRGBA, 2000, 1000, none⟩).1 (Or.inl rfl),
   (c6_alpha_flattened_palette_fails 600 ⟨.modeP, 10, 10, none⟩).2 rfl⟩

/-! ## Claim C9 — manifest entry description (corrected)

`regenerate_from_groups` derives the description from the *truthiness* of
`config.get('location', '')`: a `location` key that is present but holds
the empty string produces the no-location form, against the claim's "when
location is present". -/

/-- C9 counterexample: for a group directory whose readable `config.json`
has `location` present but equal to `""`, the rebuilt entry's description
is the no-location form, not the claimed
`"{name} at {location} on {date_captured}."` form. -/
theorem c9_counterexample :
    (regenerate_from_groups
        [⟨["2024-01-01", "beach"], true, some ⟨some "Beach Day", some "", none, none⟩⟩]).groups.map
        (fun g => g.description)
      = ["Beach Day on 2024-01-01."] ∧
    "Beach Day on 2024-01-01." ≠ "Beach Day" ++ " at " ++ "" ++ " on " ++ "2024-01-01" ++ "." := by
  refine ⟨rfl, ?_⟩
  decide

/-- C9 (amended): for every group directory with a readable `config.json`,
the rebuilt manifest entry has description
`"{name} at {location} on {date_captured}."` when `location` is present
**and non-empty**, and `"{name} on {date_captured}."` otherwise (absent or
empty), where `name` is the config's `name` falling back to the directory
name when absent, and `date_captured` is the parent directory's name. -/
theorem c9_description (rs : List GroupRef) (r : GroupRef) (cfg : GroupConfig)
    (hmem : r ∈ rs) (hfile : r.hasConfigFile = true) (hparse : r.configParse = some cfg)
    (hlen : 2 ≤ r.pathParts.length) :
    ∃ g ∈ (regenerate_from_groups rs).groups,
      g.id = r.pathParts.getD (r.pathParts.length - 1) "" ∧
      g.description =
        (if cfg.location.getD "" ≠ "" then
          cfg.name.getD (r.pathParts.getD (r.pathParts.length - 1) "")
            ++ " at " ++ cfg.location.getD ""
            ++ " on " ++ r.pathParts.getD (r.pathParts.length - 2) "" ++ "."
        else
          cfg.name.getD (r.pathParts.getD (r.pathParts.length - 1) "")
            ++ " on " ++ r.pathParts.getD (r.pathParts.length - 2) "" ++ ".") := by
  have hnotlt : ¬ r.pathParts.length < 2 := Nat.not_lt.mpr hlen
  have hsome : regenGroup r = some
      ⟨r.pathParts.getD (r.pathParts.length - 1) "",
       cfg.name.getD (r.pathParts.getD (r.pathParts.length - 1) ""),
       (if cfg.location.getD "" ≠ "" then
          cfg.name.getD (r.pathParts.getD (r.pathParts.length - 1) "")
            ++ " at " ++ cfg.location.getD ""
            ++ " on " ++ r.pathParts.getD (r.pathParts.length - 2) "" ++ "."
        else
          cfg.name.getD (r.pathParts.getD (r.pathParts.length - 1) "")
            ++ " on " ++ r.pathParts.getD (r.pathParts.length - 2) "" ++ "."),
       r.pathParts.getD (r.pathParts.length - 2) "", [], "",
       cfg.featured_image.getD "",
       (if cfg.url.getD "" ≠ "" then some (cfg.url.getD "") else none)⟩ := by
    simp [regenGroup, hfile, hparse, hnotlt]
  exact ⟨_, List.mem_filterMap.mpr ⟨r, hmem, hsome⟩, rfl, rfl⟩

/-- C9 witness: the amended statement at the spec's end-to-end example
(`{"name": "Beach Day", "location": "Santa Cruz"}` under
`2024-01-01/beach`). -/
theorem c9_description_witness :
    ∃ g ∈ (regenerate_from_groups
        [⟨["2024-01-01", "beach"], true,
          some ⟨some "Beach Day", some "Santa Cruz", none, none⟩⟩]).groups,
      g.id = (["2024-01-01", "beach"] : List String).getD 1 "" ∧
      g.description =
        (if (some "Santa Cruz" : Option String).getD "" ≠ "" then
          (some "Beach Day" : Option String).getD ((["2024-01-01", "beach"] : List String).getD 1 "")
            ++ " at " ++ (some "Santa Cruz" : Option String).getD ""
            ++ " on " ++ (["2024-01-01", "beach"] : List String).getD 0 "" ++ "."
        else
          (some "Beach Day" : Option String).getD ((["2024-01-01", "beach"] : List String).getD 1 "")
            ++ " on " ++ (["2024-01-01", "beach"] : List String).getD 0 "" ++ ".") :=
  c9_description
    [⟨["2024-01-01", "beach"], true, some ⟨some "Beach Day", some "Santa Cruz", none, none⟩⟩]
    ⟨["2024-01-01", "beach"], true, some ⟨some "Beach Day", some "Santa Cruz", none, none⟩⟩
    ⟨some "Beach Day", some "Santa Cruz", none, none⟩
    (by simp) rfl rfl (by decide)

/-! ## Claim C10 — unknown group id leaves the manifest untouched -/

/-- C10: for every `group_id` not present in the manifest's groups list,
`update_group_images` warns and returns with the manifest entirely
unchanged and no save performed (the `false` flag records that
`_save_config` did not run). -/
theorem c10_unknown_group_untouched (m : Manifest) (group_id : String)
    (images : List ImgEntry) (h : get_group m group_id = none) :
    update_group_images m group_id images = (m, false) := by
  simp [update_group_images, h]

/-- C10 witness: a manifest holding only group `beach` is unchanged by an
update addressed to the unknown id `ghost`. -/
theorem c10_unknown_group_untouched_witness :
    update_group_images ⟨[⟨"beach", "t", "d", "2024-01-01", [], "", "", none⟩]⟩ "ghost"
        [⟨none, "photography/ghost/compressed/a-compressed.jpg"⟩]
      = (⟨[⟨"beach", "t", "d", "2024-01-01", [], "", "", none⟩]⟩, false) :=
  c10_unknown_group_untouched _ _ _ (by decide)

/-! ## Claim C2 — compression cache policy -/

/-- C2: for every recognized original image and its compressed path, when
the compressed file exists with modification time at least the original's
(`isFresh`), the codec is not invoked — the step performs no effect and
reuses the cached artifact; otherwise the codec is invoked exactly once on
the original and (the codec succeeding) the compressed artifact is
(re)written at the derived output path.  The codec-failure path is claim
C7's subject. -/
theorem c2_compression_cache (formats : List String) (codecOk : String → Bool)
    (srcPath : String) (g : GroupNode) (e : FSEntry)
    (hv : is_valid_image formats e.name = true) :
    (isFresh g e = true →
      compressStep formats codecOk srcPath g e
        = (some ⟨e.name, compressedFilename e.name, none⟩, [])) ∧
    (isFresh g e = false → codecOk (inputPathOf srcPath e.name) = true →
      compressStep formats codecOk srcPath g e
        = (some ⟨e.name, compressedFilename e.name, none⟩,
           [.codecInvoke (inputPathOf srcPath e.name),
            .compressedWrite (outputPathOf srcPath (compressedFilename e.name))])) := by
  constructor
  · intro hf
    simp [compressStep, hv, hf]
  · intro hf hc
    simp [compressStep, hv, hf, hc]

/-- C2 witness: the cache-hit branch on a concrete image whose cached
artifact is as new as the original (no effects, codec not invoked), and the
stale branch on one whose cached artifact is older (codec invoked once and
the artifact rewritten). -/
theorem c2_compression_cache_witness :
    (compressStep [".jpg"] (fun _ => true) "photos/2024-01-01/beach"
        ⟨"beach", true, [], none, [⟨"a-compressed.jpg", false, 10⟩]⟩
        ⟨"a.jpg", false, 10⟩
      = (some ⟨"a.jpg", compressedFilename "a.jpg", none⟩, [])) ∧
    (compressStep [".jpg"] (fun _ => true) "photos/2024-01-01/beach"
        ⟨"beach", true, [], none, [⟨"a-compressed.jpg", false, 3⟩]⟩
        ⟨"a.jpg", false, 10⟩
      = (some ⟨"a.jpg", compressedFilename "a.jpg", none⟩,
         [.codecInvoke (inputPathOf "photos/2024-01-01/beach" "a.jpg"),
          .compressedWrite (outputPathOf "photos/2024-01-01/beach"
            (compressedFilename "a.jpg"))])) :=
  ⟨(c2_compression_cache [".jpg"] (fun _ => true) "photos/2024-01-01/beach"
      ⟨"beach", true, [], none, [⟨"a-compressed.jpg", false, 10⟩]⟩
      ⟨"a.jpg", false, 10⟩ (by decide)).1 (by decide),
   (c2_compression_cache [".jpg"] (fun _ => true) "photos/2024-01-01/beach"
      ⟨"beach", true, [], none, [⟨"a-compressed.jpg", false, 3⟩]⟩
      ⟨"a.jpg", false, 10⟩ (by decide)).2 (by decide) (by decide)⟩

/-! ## Claim C3 — featured-image resolution -/

/-- The claim's matching condition on an uploaded entry: the basename of
the entry's compressed key, extension stripped and `-compressed` suffix
stripped, equals the featured filename's stem.  (This is exactly the
`elif 'compressed' in img` branch of `update_group_images`.) -/
def featuredKeyMatch (featured : String) (img : ImgEntry) : Bool :=
  (splitext featured).1 == stripCompressedSuffix ((splitext (basename img.compressed)).1)

theorem imgMatches_of_no_original (featured : String) (img : ImgEntry)
    (h : img.original = none) :
    imgMatches featured (splitext featured).1 img = featuredKeyMatch featured img := by
  simp [imgMatches, featuredKeyMatch, h]

theorem find?_congr_mem {α : Type} (p q : α → Bool) :
    ∀ l : List α, (∀ x ∈ l, p x = q x) → l.find? p = l.find? q := by
  intro l
  induction l with
  | nil => intro _; rfl
  | cons a l ih =>
      intro h
      have ha := h a (by simp)
      by_cases hp : p a = true
      · rw [List.find?_cons_of_pos _ hp, List.find?_cons_of_pos _ (ha ▸ hp)]
      · rw [List.find?_cons_of_neg _ (by simp_all), List.find?_cons_of_neg _ (by simp_all)]
        exact ih (fun x hx => h x (by simp [hx]))

theorem updateOne_id (g : Group) (images : List ImgEntry) :
    (updateOne g images).id = g.id := by
  unfold updateOne
  cases images with
  | nil => rfl
  | cons a l =>
      dsimp only
      split
      · split <;> rfl
      · rfl

theorem updateOne_images (g : Group) (images : List ImgEntry) :
    (updateOne g images).images = images := by
  unfold updateOne
  cases images with
  | nil => rfl
  | cons a l =>
      dsimp only
      split
      · split <;> rfl
      · rfl

theorem get_group_updateFirst (group_id : String) (f : Group → Group)
    (hid : ∀ g, (f g).id = g.id) :
    ∀ (gs : List Group) (g₀ : Group),
      gs.find? (fun g => g.id == group_id) = some g₀ →
      (updateFirst group_id f gs).find? (fun g => g.id == group_id) = some (f g₀) := by
  intro gs
  induction gs with
  | nil => intro g₀ h; simp at h
  | cons g rest ih =>
      intro g₀ h
      by_cases hgg : (g.id == group_id) = true
      · rw [@List.find?_cons_of_pos _ (fun x => x.id == group_id) g rest hgg] at h
        obtain rfl : g = g₀ := Option.some.inj h
        simp only [updateFirst, if_pos hgg]
        rw [@List.find?_cons_of_pos _ (fun x => x.id == group_id) (f g) rest
          (by show ((f g).id == group_id) = true; rw [hid g]; exact hgg)]
      · rw [@List.find?_cons_of_neg _ (fun x => x.id == group_id) g rest hgg] at h
        simp only [updateFirst, if_neg hgg]
        rw [@List.find?_cons_of_neg _ (fun x => x.id == group_id) g
          (updateFirst group_id f rest) hgg]
        exact ih g₀ h

/-- C3: for every group with a non-empty list of uploaded image entries
(entries carrying only a `compressed` key, as the pipeline produces): when
the group's `featured_image` is set and some entry matches it — the
basename of the entry's compressed key, extension stripped and
`-compressed` suffix stripped, equals the featured filename's stem —
`coverImage` becomes a matching entry's compressed key, regardless of that
entry's position; when `featured_image` is unset or no entry matches,
`coverImage` becomes the first entry's compressed key. -/
theorem c3_featured_cover_resolution (m : Manifest) (group_id : String)
    (images : List ImgEntry) (g₀ : Group)
    (hg : get_group m group_id = some g₀)
    (hne : images ≠ [])
    (horig : ∀ img ∈ images, img.original = none) :
    ∃ g', get_group (update_group_images m group_id images).1 group_id = some g' ∧
      g'.images = images ∧
      ((g₀.featured_image ≠ "" ∧
        (∃ img ∈ images, featuredKeyMatch g₀.featured_image img = true)) →
        ∃ img ∈ images, featuredKeyMatch g₀.featured_image img = true ∧
          g'.coverImage = img.compressed) ∧
      ((g₀.featured_image = "" ∨
        (∀ img ∈ images, featuredKeyMatch g₀.featured_image img = false)) →
        ∃ first rest, images = first :: rest ∧ g'.coverImage = first.compressed) := by
  have hupd : (update_group_images m group_id images).1
      = ⟨updateFirst group_id (fun g => updateOne g images) m.groups⟩ := by
    simp [update_group_images, hg]
  have hget : get_group (update_group_images m group_id images).1 group_id
      = some (updateOne g₀ images) := by
    rw [hupd]
    exact get_group_updateFirst group_id _ (fun g => updateOne_id g images) m.groups g₀ hg
  have hfq : images.find? (imgMatches g₀.featured_image (splitext g₀.featured_image).1)
      = images.find? (featuredKeyMatch g₀.featured_image) :=
    find?_congr_mem _ _ images
      (fun x hx => imgMatches_of_no_original g₀.featured_image x (horig x hx))
  obtain ⟨first, rest, rfl⟩ : ∃ a l, images = a :: l := by
    cases images with
    | nil => exact absurd rfl hne
    | cons a l => exact ⟨a, l, rfl⟩
  refine ⟨updateOne g₀ (first :: rest), hget, updateOne_images g₀ (first :: rest), ?_, ?_⟩
  · rintro ⟨hfe, img, hmemI, hmatch⟩
    have hsome : ((first :: rest).find? (featuredKeyMatch g₀.featured_image)).isSome := by
      rw [List.find?_isSome]
      exact ⟨img, hmemI, hmatch⟩
    obtain ⟨fimg, hfind⟩ := Option.isSome_iff_exists.mp hsome
    refine ⟨fimg, List.mem_of_find?_eq_some hfind, List.find?_some hfind, ?_⟩
    simp [updateOne, hfe, hfq, hfind]
  · rintro (hfe | hnone)
    · exact ⟨first, rest, rfl, by simp [updateOne, hfe]⟩
    · have hfind : (first :: rest).find? (featuredKeyMatch g₀.featured_image) = none :=
        List.find?_eq_none.mpr (fun x hx => by simp [hnone x hx])
      by_cases hfe : g₀.featured_image = ""
      · exact ⟨first, rest, rfl, by simp [updateOne, hfe]⟩
      · exact ⟨first, rest, rfl, by simp [updateOne, hfe, hfq, hfind]⟩

/-- C3 witness: the repository's own featured-image scenario
(`test_featured_image.py`): featured image `DSC09592.jpg`, three uploaded
entries with the matching key second — `coverImage` resolves to the
matching key, not the first. -/
theorem c3_featured_cover_resolution_witness :
    ∃ g', get_group (update_group_images
        ⟨[⟨"Lizze", "t", "d", "2024-01-01", [], "", "DSC09592.jpg", none⟩]⟩ "Lizze"
        [⟨none, "photography/Lizze/compressed/DSC09735-compressed.jpg"⟩,
         ⟨none, "photography/Lizze/compressed/DSC09592-compressed.jpg"⟩,
         ⟨none, "photography/Lizze/compressed/DSC09733-compressed.jpg"⟩]).1 "Lizze"
      = some g' ∧
      g'.images =
        [⟨none, "photography/Lizze/compressed/DSC09735-compressed.jpg"⟩,
         ⟨none, "photography/Lizze/compressed/DSC09592-compressed.jpg"⟩,
         ⟨none, "photography/Lizze/compressed/DSC09733-compressed.jpg"⟩] ∧
      ((("DSC09592.jpg" : String) ≠ "" ∧
        (∃ img ∈ [(⟨none, "photography/Lizze/compressed/DSC09735-compressed.jpg"⟩ : ImgEntry),
         ⟨none, "photography/Lizze/compressed/DSC09592-compressed.jpg"⟩,
         ⟨none, "photography/Lizze/compressed/DSC09733-compressed.jpg"⟩],
          featuredKeyMatch "DSC09592.jpg" img = true)) →
        ∃ img ∈ [(⟨none, "photography/Lizze/compressed/DSC09735-compressed.jpg"⟩ : ImgEntry),
         ⟨none, "photography/Lizze/compressed/DSC09592-compressed.jpg"⟩,
         ⟨none, "photography/Lizze/compressed/DSC09733-compressed.jpg"⟩],
          featuredKeyMatch "DSC09592.jpg" img = true ∧
          g'.coverImage = img.compressed) ∧
      ((("DSC09592.jpg" : String) = "" ∨
        (∀ img ∈ [(⟨none, "photography/Lizze/compressed/DSC09735-compressed.jpg"⟩ : ImgEntry),
         ⟨none, "photography/Lizze/compressed/DSC09592-compressed.jpg"⟩,
         ⟨none, "photography/Lizze/compressed/DSC09733-compressed.jpg"⟩],
          featuredKeyMatch "DSC09592.jpg" img = false)) →
        ∃ first rest,
          ([(⟨none, "photography/Lizze/compressed/DSC09735-compressed.jpg"⟩ : ImgEntry),
            ⟨none, "photography/Lizze/compressed/DSC09592-compressed.jpg"⟩,
            ⟨none, "photography/Lizze/compressed/DSC09733-compressed.jpg"⟩] : List ImgEntry)
            = first :: rest ∧ g'.coverImage = first.compressed) :=
  c3_featured_cover_resolution
    ⟨[⟨"Lizze", "t", "d", "2024-01-01", [], "", "DSC09592.jpg", none⟩]⟩ "Lizze"
    [⟨none, "photography/Lizze/compressed/DSC09735-compressed.jpg"⟩,
     ⟨none, "photography/Lizze/compressed/DSC09592-compressed.jpg"⟩,
     ⟨none, "photography/Lizze/compressed/DSC09733-compressed.jpg"⟩]
    ⟨"Lizze", "t", "d", "2024-01-01", [], "", "DSC09592.jpg", none⟩
    (by decide) (by decide) (by decide)

/-! ## Claim C1 — invalid date-bucket name aborts before any mutation -/

theorem discoverDates_error_first (bad : DateNode) (rest : List DateNode)
    (hdir : bad.isDir = true) (hhid : strBeginsWith bad.name "." = false)
    (hval : validate_date_directory_name bad.name = false) :
    ∀ pre : List DateNode,
      (∀ d ∈ pre, d.isDir = true → strBeginsWith d.name "." = false →
        validate_date_directory_name d.name = true) →
      discoverDates (pre ++ bad :: rest) = .error bad.name := by
  intro pre
  induction pre with
  | nil =>
      intro _
      simp [discoverDates, hdir, hhid, hval]
  | cons d pre ih =>
      intro h
      have ih' := ih (fun x hx h1 h2 => h x (by simp [hx]) h1 h2)
      cases hd : d.isDir with
      | false => simp [discoverDates, hd, ih']
      | true =>
          cases hh : strBeginsWith d.name "." with
          | true => simp [discoverDates, hd, hh, ih']
          | false =>
              have h3 := h d (by simp) hd hh
              simp [discoverDates, hd, hh, h3, ih']

/-- C1: for every collection (whose root exists) in which some non-hidden
top-level directory entry does not pass `validate_date_directory_name` —
the name does not match `YYYY-MM-DD` or is not a real calendar date — the
run aborts (non-zero exit) upon encountering the first such entry:
discovery fails with that first entry's name, the run result is a failure,
and its effect trace is empty, so no manifest write and no remote upload
or delete has been performed. -/
theorem c1_invalid_date_aborts_unmutated (cfg : PipeConfig)
    (codecOk uploadOk : String → Bool) (purgeRes : Bool) (col : Collection)
    (pre : List DateNode) (bad : DateNode) (rest : List DateNode)
    (hpresent : col.present = true)
    (hdates : col.dates = pre ++ bad :: rest)
    (hpre : ∀ d ∈ pre, d.isDir = true → strBeginsWith d.name "." = false →
      validate_date_directory_name d.name = true)
    (hdir : bad.isDir = true) (hhid : strBeginsWith bad.name "." = false)
    (hval : validate_date_directory_name bad.name = false) :
    discover_group_directories col = .error bad.name ∧
    (run cfg codecOk uploadOk purgeRes col).ok = false ∧
    (run cfg codecOk uploadOk purgeRes col).effects = [] := by
  have hd : discover_group_directories col = .error bad.name := by
    rw [discover_group_directories, hpresent, hdates]
    exact discoverDates_error_first bad rest hdir hhid hval pre hpre
  refine ⟨hd, ?_, ?_⟩ <;> simp [run, hd]

/-- C1 witness: a collection whose first date bucket is valid (and holds a
group with an image) and whose second is the impossible date `2024-02-30`:
the run fails with an empty effect trace. -/
theorem c1_invalid_date_aborts_unmutated_witness :
    discover_group_directories
        ⟨true, [⟨"2024-01-01", true, [⟨"beach", true, [⟨"a.jpg", false, 1⟩], none, []⟩]⟩,
                ⟨"2024-02-30", true, []⟩]⟩
      = .error "2024-02-30" ∧
    (run ⟨["photos"], "photography", [".jpg"]⟩ (fun _ => true) (fun _ => true) true
        ⟨true, [⟨"2024-01-01", true, [⟨"beach", true, [⟨"a.jpg", false, 1⟩], none, []⟩]⟩,
                ⟨"2024-02-30", true, []⟩]⟩).ok = false ∧
    (run ⟨["photos"], "photography", [".jpg"]⟩ (fun _ => true) (fun _ => true) true
        ⟨true, [⟨"2024-01-01", true, [⟨"beach", true, [⟨"a.jpg", false, 1⟩], none, []⟩]⟩,
                ⟨"2024-02-30", true, []⟩]⟩).effects = [] :=
  c1_invalid_date_aborts_unmutated ⟨["photos"], "photography", [".jpg"]⟩
    (fun _ => true) (fun _ => true) true
    ⟨true, [⟨"2024-01-01", true, [⟨"beach", true, [⟨"a.jpg", false, 1⟩], none, []⟩]⟩,
            ⟨"2024-02-30", true, []⟩]⟩
    [⟨"2024-01-01", true, [⟨"beach", true, [⟨"a.jpg", false, 1⟩], none, []⟩]⟩]
    ⟨"2024-02-30", true, []⟩ []
    rfl rfl (by decide) rfl (by decide) (by decide)

/-! ## Claim C4 — validation collects every violation, then aborts -/

theorem validate_missing_eq (gs : List Discovered) :
    (validate_group_directories gs).missing_config
      = gs.filter (fun d => !(hasConfigEntry d.node)) := by
  induction gs with
  | nil => rfl
  | cons g rest ih =>
      cases hc : hasConfigEntry g.node <;>
        simp [validate_group_directories, List.filter, hc, ih]

theorem validate_subdirs_eq (gs : List Discovered) :
    (validate_group_directories gs).has_subdirectories
      = gs.filter (fun d => hasDisallowedSubdir d.node) := by
  induction gs with
  | nil => rfl
  | cons g rest ih =>
      cases hs : hasDisallowedSubdir g.node <;>
        simp [validate_group_directories, List.filter, hs, ih]

/-- C4: for every discovered set of group directories, the validation pass
enumerates all of them before any abort decision: `missing_config` holds
exactly the groups lacking a `config.json` entry and `has_subdirectories`
exactly the groups owning a subdirectory other than `compressed` (one entry
per violating group, in discovery order), and — discovery having succeeded
with a non-empty set — the run aborts if and only if at least one of the
two lists is non-empty.  (Printing of each collected violation, performed
right before the abort, is not modelled.) -/
theorem c4_validation_collects_all (cfg : PipeConfig)
    (codecOk uploadOk : String → Bool) (purgeRes : Bool) (col : Collection)
    (gs : List Discovered)
    (hdisc : discover_group_directories col = .ok gs) (hne : gs ≠ []) :
    (validate_group_directories gs).missing_config
        = gs.filter (fun d => !(hasConfigEntry d.node)) ∧
    (validate_group_directories gs).has_subdirectories
        = gs.filter (fun d => hasDisallowedSubdir d.node) ∧
    ((run cfg codecOk uploadOk purgeRes col).ok = false ↔
      ((validate_group_directories gs).missing_config ≠ [] ∨
       (validate_group_directories gs).has_subdirectories ≠ [])) := by
  refine ⟨validate_missing_eq gs, validate_subdirs_eq gs, ?_⟩
  rw [run, hdisc]
  have hemp : gs.isEmpty = false := by
    cases gs with
    | nil => exact absurd rfl hne
    | cons a l => rfl
  simp only [hemp, Bool.false_eq_true, if_false]
  by_cases hm : (validate_group_directories gs).missing_config = [] <;>
    by_cases hs : (validate_group_directories gs).has_subdirectories = [] <;>
      simp [hm, hs]

/-- C4 witness: two malformed groups — one missing its `config.json`, one
holding a stray subdirectory — produce one entry in each error list and a
failed run. -/
theorem c4_validation_collects_all_witness :
    (validate_group_directories
        [⟨"2024-01-01", ⟨"noconf", true, [⟨"a.jpg", false, 1⟩], none, []⟩⟩,
         ⟨"2024-01-01", ⟨"subdir", true,
            [⟨"b.jpg", false, 1⟩, ⟨"config.json", false, 1⟩, ⟨"extra", true, 0⟩],
            some ⟨some "S", none, none, none⟩, []⟩⟩]).missing_config
      = [⟨"2024-01-01", ⟨"noconf", true, [⟨"a.jpg", false, 1⟩], none, []⟩⟩,
         ⟨"2024-01-01", ⟨"subdir", true,
            [⟨"b.jpg", false, 1⟩, ⟨"config.json", false, 1⟩, ⟨"extra", true, 0⟩],
            some ⟨some "S", none, none, none⟩, []⟩⟩].filter
          (fun d => !(hasConfigEntry d.node)) ∧
    (validate_group_directories
        [⟨"2024-01-01", ⟨"noconf", true, [⟨"a.jpg", false, 1⟩], none, []⟩⟩,
         ⟨"2024-01-01", ⟨"subdir", true,
            [⟨"b.jpg", false, 1⟩, ⟨"config.json", false, 1⟩, ⟨"extra", true, 0⟩],
            some ⟨some "S", none, none, none⟩, []⟩⟩]).has_subdirectories
      = [⟨"2024-01-01", ⟨"noconf", true, [⟨"a.jpg", false, 1⟩], none, []⟩⟩,
         ⟨"2024-01-01", ⟨"subdir", true,
            [⟨"b.jpg", false, 1⟩, ⟨"config.json", false, 1⟩, ⟨"extra", true, 0⟩],
            some ⟨some "S", none, none, none⟩, []⟩⟩].filter
          (fun d => hasDisallowedSubdir d.node) ∧
    ((run ⟨["photos"], "photography", [".jpg"]⟩ (fun _ => true) (fun _ => true) true
        ⟨true, [⟨"2024-01-01", true,
          [⟨"noconf", true, [⟨"a.jpg", false, 1⟩], none, []⟩,
           ⟨"subdir", true,
            [⟨"b.jpg", false, 1⟩, ⟨"config.json", false, 1⟩, ⟨"extra", true, 0⟩],
            some ⟨some "S", none, none, none⟩, []⟩]⟩]⟩).ok = false ↔
      ((validate_group_directories
        [⟨"2024-01-01", ⟨"noconf", true, [⟨"a.jpg", false, 1⟩], none, []⟩⟩,
         ⟨"2024-01-01", ⟨"subdir", true,
            [⟨"b.jpg", false, 1⟩, ⟨"config.json", false, 1⟩, ⟨"extra", true, 0⟩],
            some ⟨some "S", none, none, none⟩, []⟩⟩]).missing_config ≠ [] ∨
       (validate_group_directories
        [⟨"2024-01-01", ⟨"noconf", true, [⟨"a.jpg", false, 1⟩], none, []⟩⟩,
         ⟨"2024-01-01", ⟨"subdir", true,
            [⟨"b.jpg", false, 1⟩, ⟨"config.json", false, 1⟩, ⟨"extra", true, 0⟩],
            some ⟨some "S", none, none, none⟩, []⟩⟩]).has_subdirectories ≠ [])) :=
  c4_validation_collects_all ⟨["photos"], "photography", [".jpg"]⟩
    (fun _ => true) (fun _ => true) true
    ⟨true, [⟨"2024-01-01", true,
      [⟨"noconf", true, [⟨"a.jpg", false, 1⟩], none, []⟩,
       ⟨"subdir", true,
        [⟨"b.jpg", false, 1⟩, ⟨"config.json", false, 1⟩, ⟨"extra", true, 0⟩],
        some ⟨some "S", none, none, none⟩, []⟩]⟩]⟩
    [⟨"2024-01-01", ⟨"noconf", true, [⟨"a.jpg", false, 1⟩], none, []⟩⟩,
     ⟨"2024-01-01", ⟨"subdir", true,
        [⟨"b.jpg", false, 1⟩, ⟨"config.json", false, 1⟩, ⟨"extra", true, 0⟩],
        some ⟨some "S", none, none, none⟩, []⟩⟩]
    rfl (by decide)

/-! ## Claim C8 — purge failure is non-fatal -/

/-- C8: `delete_collection` reports failure by returning `false` rather
than raising (in particular whenever the remote client raises), and the
run's outcome is independent of the purge result: for any two purge
results, the per-group compression, upload and manifest-update effects, the
final manifest, and the overall success outcome coincide — only the
recorded purge attempt itself differs.  (The orchestrator's warning print
on a `false` purge is not modelled.) -/
theorem c8_purge_failure_nonfatal :
    (∀ (st : RemoteState) (pfxArg : Option String) (base_path : String),
      delete_collection ⟨st.objects, true, st.batchErrors⟩ pfxArg base_path = false) ∧
    (∀ (cfg : PipeConfig) (codecOk uploadOk : String → Bool) (col : Collection)
        (b₁ b₂ : Bool),
      (run cfg codecOk uploadOk b₁ col).ok = (run cfg codecOk uploadOk b₂ col).ok ∧
      (run cfg codecOk uploadOk b₁ col).manifest
        = (run cfg codecOk uploadOk b₂ col).manifest ∧
      (run cfg codecOk uploadOk b₁ col).effects.filter (fun e => !(Effect.isPurge e))
        = (run cfg codecOk uploadOk b₂ col).effects.filter (fun e => !(Effect.isPurge e))) := by
  constructor
  · intro st pfxArg base_path
    simp [delete_collection]
  · intro cfg codecOk uploadOk col b₁ b₂
    cases hd : discover_group_directories col with
    | error e => simp [run, hd]
    | ok gs =>
        by_cases hemp : gs.isEmpty = true
        · simp [run, hd, hemp]
        · by_cases hv : ((validate_group_directories gs).missing_config.isEmpty &&
              (validate_group_directories gs).has_subdirectories.isEmpty) = true
          · simp [run, hd, hemp, hv, List.filter, Effect.isPurge]
          · simp [run, hd, hemp, hv]

/-- C8 witness: the statement at a concrete remote state (a raising client
returns `false`) and a concrete one-group collection run under succeeding
and failing purges. -/
theorem c8_purge_failure_nonfatal_witness :
    delete_collection ⟨["photography/a"], true, []⟩ none "photography" = false ∧
    ((run ⟨["photos"], "photography", [".jpg"]⟩ (fun _ => true) (fun _ => true) true
        ⟨true, [⟨"2024-01-01", true,
          [⟨"beach", true, [⟨"a.jpg", false, 1⟩, ⟨"config.json", false, 1⟩],
            some ⟨some "B", none, none, none⟩, []⟩]⟩]⟩).ok
      = (run ⟨["photos"], "photography", [".jpg"]⟩ (fun _ => true) (fun _ => true) false
        ⟨true, [⟨"2024-01-01", true,
          [⟨"beach", true, [⟨"a.jpg", false, 1⟩, ⟨"config.json", false, 1⟩],
            some ⟨some "B", none, none, none⟩, []⟩]⟩]⟩).ok ∧
    (run ⟨["photos"], "photography", [".jpg"]⟩ (fun _ => true) (fun _ => true) true
        ⟨true, [⟨"2024-01-01", true,
          [⟨"beach", true, [⟨"a.jpg", false, 1⟩, ⟨"config.json", false, 1⟩],
            some ⟨some "B", none, none, none⟩, []⟩]⟩]⟩).manifest
      = (run ⟨["photos"], "photography", [".jpg"]⟩ (fun _ => true) (fun _ => true) false
        ⟨true, [⟨"2024-01-01", true,
          [⟨"beach", true, [⟨"a.jpg", false, 1⟩, ⟨"config.json", false, 1⟩],
            some ⟨some "B", none, none, none⟩, []⟩]⟩]⟩).manifest ∧
    (run ⟨["photos"], "photography", [".jpg"]⟩ (fun _ => true) (fun _ => true) true
        ⟨true, [⟨"2024-01-01", true,
          [⟨"beach", true, [⟨"a.jpg", false, 1⟩, ⟨"config.json", false, 1⟩],
            some ⟨some "B", none, none, none⟩, []⟩]⟩]⟩).effects.filter
          (fun e => !(Effect.isPurge e))
      = (run ⟨["photos"], "photography", [".jpg"]⟩ (fun _ => true) (fun _ => true) false
        ⟨true, [⟨"2024-01-01", true,
          [⟨"beach", true, [⟨"a.jpg", false, 1⟩, ⟨"config.json", false, 1⟩],
            some ⟨some "B", none, none, none⟩, []⟩]⟩]⟩).effects.filter
          (fun e => !(Effect.isPurge e))) :=
  ⟨c8_purge_failure_nonfatal.1 ⟨["photography/a"], false, []⟩ none "photography",
   c8_purge_failure_nonfatal.2 ⟨["photos"], "photography", [".jpg"]⟩
     (fun _ => true) (fun _ => true)
     ⟨true, [⟨"2024-01-01", true,
       [⟨"beach", true, [⟨"a.jpg", false, 1⟩, ⟨"config.json", false, 1⟩],
         some ⟨some "B", none, none, none⟩, []⟩]⟩]⟩ true false⟩

/-! ## Claim C7 — a single per-image failure is isolated -/

/-- Per-image success as the pipeline observes it: the artifact is fresh or
freshly recompressed (codec success), and its upload succeeds.  An image
fails exactly when its codec invocation fails or its upload fails. -/
def imageOk (cfg : PipeConfig) (codecOk uploadOk : String → Bool) (d : Discovered)
    (e : FSEntry) : Bool :=
  (isFresh d.node e ||
    codecOk (inputPathOf (joinParts (cfg.rootParts ++ [d.dateName, d.node.name])) e.name)) &&
  uploadOk (s3KeyOf cfg.base_path d.node.name (compressedFilename e.name))

theorem uploadLoop_fst_append (bp : String) (u : String → Bool) (gid : String) :
    ∀ a b : List FileInfo,
      (uploadLoop bp u gid (a ++ b)).1 = (uploadLoop bp u gid a).1 ++ (uploadLoop bp u gid b).1 := by
  intro a b
  induction a with
  | nil => rfl
  | cons fi rest ih => simp [uploadLoop, ih]

theorem processed_aux (fm : List String) (c u : String → Bool) (sp bp gid : String)
    (g : GroupNode) :
    ∀ l : List FSEntry,
      ((uploadLoop bp u gid (compressLoop fm c sp g l).1).1).filterMap
          (fun fi => fi.uploaded.map (fun k => ImgEntry.mk none k))
        = l.filterMap (fun e =>
            if is_valid_image fm e.name &&
                ((isFresh g e || c (inputPathOf sp e.name)) &&
                  u (s3KeyOf bp gid (compressedFilename e.name))) then
              some ⟨none, s3KeyOf bp gid (compressedFilename e.name)⟩
            else none) := by
  intro l
  induction l with
  | nil => rfl
  | cons e rest ih =>
      by_cases hv : is_valid_image fm e.name = true
      · by_cases hf : isFresh g e = true
        · by_cases hu : u (s3KeyOf bp gid (compressedFilename e.name)) = true <;>
            simp [compressLoop, compressStep, hv, hf, hu, uploadLoop, uploadStep,
              uploadLoop_fst_append, ih]
        · by_cases hc : c (inputPathOf sp e.name) = true
          · by_cases hu : u (s3KeyOf bp gid (compressedFilename e.name)) = true <;>
              simp [compressLoop, compressStep, hv, hf, hc, hu, uploadLoop, uploadStep,
                uploadLoop_fst_append, ih]
          · simp [compressLoop, compressStep, hv, hf, hc, uploadLoop_fst_append, ih]
      · simp [compressLoop, compressStep, hv, uploadLoop_fst_append, ih]

theorem filterMap_guard_filter {α β : Type} (p q : α → Bool) (f : α → β) :
    ∀ l : List α,
      l.filterMap (fun e => if p e && q e then some (f e) else none)
        = (l.filter p).filterMap (fun e => if q e then some (f e) else none) := by
  intro l
  induction l with
  | nil => rfl
  | cons a rest ih =>
      simp only [Bool.and_eq_true] at ih
      cases hp : p a <;> cases hq : q a <;>
        simp [List.filter_cons, List.filterMap_cons, hp, hq, ih]

theorem filterMap_all_true {α β : Type} (q : α → Bool) (f : α → β) :
    ∀ l : List α, (∀ e ∈ l, q e = true) →
      l.filterMap (fun e => if q e then some (f e) else none) = l.map f := by
  intro l
  induction l with
  | nil => intro _; rfl
  | cons a rest ih =>
      intro h
      simp [h a (by simp), ih (fun x hx => h x (by simp [hx]))]

/-- C7: for every group whose recognized images split as `A ++ bad :: B`
where every image in `A` and `B` succeeds (fresh or compressed successfully,
and uploaded successfully) and `bad` alone fails (codec failure or upload
failure), the processed list contains exactly the `N − 1` surviving images'
entries in order, and the group's manifest entry — present with an empty
image list, as the regeneration pass leaves it — ends up with exactly
`N − 1` image entries; the failure aborts neither the group nor its sibling
images. -/
theorem c7_single_failure_isolated (cfg : PipeConfig) (codecOk uploadOk : String → Bool)
    (m : Manifest) (d : Discovered) (A B : List FSEntry) (bad : FSEntry) (g₀ : Group)
    (hfiles : d.node.entries.filter (fun e => is_valid_image cfg.formats e.name)
        = A ++ bad :: B)
    (hA : ∀ e ∈ A, imageOk cfg codecOk uploadOk d e = true)
    (hB : ∀ e ∈ B, imageOk cfg codecOk uploadOk d e = true)
    (hbad : imageOk cfg codecOk uploadOk d bad = false)
    (hg : get_group m d.node.name = some g₀)
    (himgs : g₀.images = []) :
    processedImages cfg codecOk uploadOk d
        = (A ++ B).map (fun e =>
            ImgEntry.mk none (s3KeyOf cfg.base_path d.node.name (compressedFilename e.name))) ∧
    ∃ g', get_group (processGroupDir cfg codecOk uploadOk m d).1 d.node.name = some g' ∧
      (A ++ B ≠ [] → g'.images = processedImages cfg codecOk uploadOk d) ∧
      g'.images.length + 1
        = (d.node.entries.filter (fun e => is_valid_image cfg.formats e.name)).length := by
  have hproc : processedImages cfg codecOk uploadOk d
      = (A ++ B).map (fun e =>
          ImgEntry.mk none (s3KeyOf cfg.base_path d.node.name (compressedFilename e.name))) := by
    unfold processedImages
    rw [processed_aux]
    show d.node.entries.filterMap (fun e =>
        if is_valid_image cfg.formats e.name && imageOk cfg codecOk uploadOk d e then
          some (ImgEntry.mk none (s3KeyOf cfg.base_path d.node.name (compressedFilename e.name)))
        else none)
      = _
    rw [filterMap_guard_filter (fun e => is_valid_image cfg.formats e.name)
        (fun e => imageOk cfg codecOk uploadOk d e)
        (fun e => ImgEntry.mk none (s3KeyOf cfg.base_path d.node.name (compressedFilename e.name)))
        d.node.entries]
    rw [hfiles, List.filterMap_append, List.filterMap_cons]
    rw [filterMap_all_true (fun e => imageOk cfg codecOk uploadOk d e)
        (fun e => ImgEntry.mk none (s3KeyOf cfg.base_path d.node.name (compressedFilename e.name)))
        A hA]
    rw [filterMap_all_true (fun e => imageOk cfg codecOk uploadOk d e)
        (fun e => ImgEntry.mk none (s3KeyOf cfg.base_path d.node.name (compressedFilename e.name)))
        B hB]
    simp [hbad]
  refine ⟨hproc, ?_⟩
  unfold processGroupDir
  simp only [hproc]
  cases hAB : A ++ B with
  | nil =>
      obtain ⟨rfl, rfl⟩ := List.append_eq_nil.mp hAB
      simp only [List.map_nil, List.isEmpty_nil, if_true]
      refine ⟨g₀, hg, fun h => absurd rfl h, ?_⟩
      rw [himgs, hfiles]
      rfl
  | cons x xs =>
      have hupd : (update_group_images m d.node.name
            ((x :: xs).map (fun e =>
              ImgEntry.mk none (s3KeyOf cfg.base_path d.node.name (compressedFilename e.name))))).1
          = ⟨updateFirst d.node.name
              (fun g => updateOne g ((x :: xs).map (fun e =>
                ImgEntry.mk none (s3KeyOf cfg.base_path d.node.name (compressedFilename e.name)))))
              m.groups⟩ := by
        simp [update_group_images, hg]
      refine ⟨updateOne g₀ ((x :: xs).map (fun e =>
          ImgEntry.mk none (s3KeyOf cfg.base_path d.node.name (compressedFilename e.name)))),
        ?_, ?_, ?_⟩
      · simp only [List.map_cons, List.isEmpty_cons, Bool.false_eq_true, if_false]
        rw [show ((x :: xs).map (fun e =>
            ImgEntry.mk none (s3KeyOf cfg.base_path d.node.name (compressedFilename e.name))))
          = ImgEntry.mk none (s3KeyOf cfg.base_path d.node.name (compressedFilename x.name))
            :: xs.map (fun e =>
              ImgEntry.mk none (s3KeyOf cfg.base_path d.node.name (compressedFilename e.name)))
          from rfl] at hupd
        rw [hupd]
        exact get_group_updateFirst d.node.name _ (fun g => updateOne_id g _) m.groups g₀ hg
      · intro _
        exact updateOne_images g₀ _
      · rw [updateOne_images]
        rw [hfiles]
        have hlen : xs.length + 1 = A.length + B.length := by
          have := congrArg List.length hAB
          simp at this
          omega
        simp [List.length_append]
        omega

/-- C7 witness: a group of three recognized images `a.jpg`, `b.jpg`,
`c.jpg` whose middle upload fails: the processed list and the manifest
entry hold exactly the two surviving entries. -/
theorem c7_single_failure_isolated_witness :
    processedImages ⟨["photos"], "photography", [".jpg"]⟩ (fun _ => true)
        (fun k => k != "photography/g/compressed/b-compressed.jpg")
        ⟨"2024-01-01", ⟨"g", true,
          [⟨"config.json", false, 1⟩, ⟨"a.jpg", false, 1⟩, ⟨"b.jpg", false, 1⟩,
           ⟨"c.jpg", false, 1⟩], some ⟨some "G", none, none, none⟩, []⟩⟩
      = ([⟨"a.jpg", false, 1⟩, ⟨"c.jpg", false, 1⟩] : List FSEntry).map (fun e =>
          ImgEntry.mk none (s3KeyOf "photography" "g" (compressedFilename e.name))) ∧
    ∃ g', get_group (processGroupDir ⟨["photos"], "photography", [".jpg"]⟩ (fun _ => true)
        (fun k => k != "photography/g/compressed/b-compressed.jpg")
        ⟨[⟨"g", "t", "d", "2024-01-01", [], "", "", none⟩]⟩
        ⟨"2024-01-01", ⟨"g", true,
          [⟨"config.json", false, 1⟩, ⟨"a.jpg", false, 1⟩, ⟨"b.jpg", false, 1⟩,
           ⟨"c.jpg", false, 1⟩], some ⟨some "G", none, none, none⟩, []⟩⟩).1 "g"
      = some g' ∧
      (([⟨"a.jpg", false, 1⟩] : List FSEntry) ++ [⟨"c.jpg", false, 1⟩] ≠ [] →
        g'.images = processedImages ⟨["photos"], "photography", [".jpg"]⟩ (fun _ => true)
          (fun k => k != "photography/g/compressed/b-compressed.jpg")
          ⟨"2024-01-01", ⟨"g", true,
            [⟨"config.json", false, 1⟩, ⟨"a.jpg", false, 1⟩, ⟨"b.jpg", false, 1⟩,
             ⟨"c.jpg", false, 1⟩], some ⟨some "G", none, none, none⟩, []⟩⟩) ∧
      g'.images.length + 1
        = (([⟨"config.json", false, 1⟩, ⟨"a.jpg", false, 1⟩, ⟨"b.jpg", false, 1⟩,
             ⟨"c.jpg", false, 1⟩] : List FSEntry).filter
            (fun e => is_valid_image [".jpg"] e.name)).length :=
  c7_single_failure_isolated ⟨["photos"], "photography", [".jpg"]⟩ (fun _ => true)
    (fun k => k != "photography/g/compressed/b-compressed.jpg")
    ⟨[⟨"g", "t", "d", "2024-01-01", [], "", "", none⟩]⟩
    ⟨"2024-01-01", ⟨"g", true,
      [⟨"config.json", false, 1⟩, ⟨"a.jpg", false, 1⟩, ⟨"b.jpg", false, 1⟩,
       ⟨"c.jpg", false, 1⟩], some ⟨some "G", none, none, none⟩, []⟩⟩
    [⟨"a.jpg", false, 1⟩] [⟨"c.jpg", false, 1⟩] ⟨"b.jpg", false, 1⟩
    ⟨"g", "t", "d", "2024-01-01", [], "", "", none⟩
    (by decide) (by decide) (by decide) (by decide) rfl rfl

end PhotoSync
